import Mathlib

/-!
Verification development for the FastGAN training script (`train.py`).

The script is shallowly embedded: tensors become the structure `Img`
(dimensions plus a rational-valued pixel function and a requires-grad
flag), the two random number generators (Python `random` and the torch
sampler) become explicit streams threaded through the step functions,
and the side effects of one training iteration (backward passes,
optimizer steps, the EMA update, parameter swaps and checkpoint writes)
become an explicit event trace.  External collaborators (the networks,
the perceptual metric, interpolation, differentiable augmentation, the
optimizers) are opaque function parameters.
-/

namespace FastGAN

/-- Tensor model: a batched image with explicit dimensions, a total
pixel function, and the requires-grad flag (`rg`).  Out-of-range
coordinates are irrelevant junk. -/
@[ext]
structure Img where
  b : ℕ
  c : ℕ
  h : ℕ
  w : ℕ
  px : ℕ → ℕ → ℕ → ℕ → ℚ
  rg : Bool

/-- Number of scalar elements of a tensor. -/
def Img.numel (t : Img) : ℕ := t.b * t.c * t.h * t.w

/-- Sum of all elements. -/
def Img.sum (t : Img) : ℚ :=
  ∑ b ∈ Finset.range t.b, ∑ c ∈ Finset.range t.c,
    ∑ i ∈ Finset.range t.h, ∑ j ∈ Finset.range t.w, t.px b c i j

/-- Mean over all elements, `tensor.mean()`. -/
def Img.mean (t : Img) : ℚ := t.sum / (t.numel : ℚ)

/-- Elementwise `tensor * a`. -/
def Img.scale (t : Img) (a : ℚ) : Img :=
  { t with px := fun b c i j => t.px b c i j * a }

/-- Elementwise `tensor + a` for a scalar `a`. -/
def Img.addC (t : Img) (a : ℚ) : Img :=
  { t with px := fun b c i j => t.px b c i j + a }

/-- Elementwise sum of two tensors (shape taken from the left operand). -/
def Img.add (t u : Img) : Img :=
  { t with px := fun b c i j => t.px b c i j + u.px b c i j }

/-- Elementwise difference of two tensors (shape taken from the left operand). -/
def Img.sub (t u : Img) : Img :=
  { t with px := fun b c i j => t.px b c i j - u.px b c i j }

/-- Elementwise `F.relu`. -/
def relu (t : Img) : Img :=
  { t with px := fun b c i j => max (t.px b c i j) 0 }

/-- Tensor of the same shape filled with the constant `a`. -/
def constLike (t : Img) (a : ℚ) : Img :=
  { t with px := fun _ _ _ _ => a, rg := false }

/-- The `.detach()` operation: same values, gradient flow blocked. -/
def detach (t : Img) : Img := { t with rg := false }

/-- Random state: the Python `random` module (an integer stream at
position `ipos`) and the torch sampler (a rational stream at position
`rpos`).  The two are independent generators, as in the source. -/
structure RNG where
  ints : ℕ → ℕ
  reals : ℕ → ℚ
  ipos : ℕ
  rpos : ℕ

/-- Python `random.randint(lo, hi)` (both bounds inclusive): one draw
from the integer stream, reduced into the requested range. -/
def randint (g : RNG) (lo hi : ℤ) : ℤ × RNG :=
  (lo + (g.ints g.ipos : ℤ) % (hi - lo + 1), { g with ipos := g.ipos + 1 })

/-- Row-major flat index of an element within a tensor of `t`'s shape. -/
def flatIdx (t : Img) (b c i j : ℕ) : ℕ :=
  ((b * t.c + c) * t.h + i) * t.w + j

/-- The `torch.rand_like(t)` call: a fresh tensor of `t`'s shape whose
elements are consecutive draws from the real stream starting at the
current position; the position advances by `t.numel`. -/
def randLike (g : RNG) (t : Img) : Img × RNG :=
  ({ b := t.b, c := t.c, h := t.h, w := t.w,
     px := fun b c i j => g.reals (g.rpos + flatIdx t b c i j),
     rg := false },
   { g with rpos := g.rpos + t.numel })

/-- The source function `crop_image_by_part` (train.py lines 26-35):
`hw = image.shape[2]//2`, then one of the four corner slices
`image[:,:,:hw,:hw]`, `image[:,:,:hw,hw:]`, `image[:,:,hw:,:hw]`,
`image[:,:,hw:,hw:]`; any other `part` falls through every branch and
returns `None`.  Slice extents follow Python clamping semantics
(`min`/truncated subtraction). -/
def crop_image_by_part (image : Img) (part : ℤ) : Option Img :=
  let hw := image.h / 2
  if part = 0 then
    some { image with h := min hw image.h, w := min hw image.w,
                      px := fun b c i j => image.px b c i j }
  else if part = 1 then
    some { image with h := min hw image.h, w := image.w - hw,
                      px := fun b c i j => image.px b c i (hw + j) }
  else if part = 2 then
    some { image with h := image.h - hw, w := min hw image.w,
                      px := fun b c i j => image.px b c (hw + i) j }
  else if part = 3 then
    some { image with h := image.h - hw, w := image.w - hw,
                      px := fun b c i j => image.px b c (hw + i) (hw + j) }
  else
    none

/-- Source coordinate reached by element `(i, j)` of quadrant `p` when
the half-size is `k`; used to express disjointness and coverage of the
four crops. -/
def partSrcN (k p i j : ℕ) : ℕ × ℕ :=
  if p = 0 then (i, j)
  else if p = 1 then (i, k + j)
  else if p = 2 then (k + i, j)
  else if p = 3 then (k + i, k + j)
  else (i, j)

/-- External collaborators of the discriminator step: the perceptual
metric (per-sample distances, summed by the caller) and `F.interpolate`
to a target spatial size. -/
structure DEnv where
  percept : Img → Img → List ℚ
  interpolate : Img → ℕ → Img

/-- The discriminator as an opaque collaborator: the real-label forward
returns a prediction and the three reconstructions, the fake-label
forward returns only a prediction. -/
structure DNet where
  forwardReal : Img → ℤ → Img × (Img × Img × Img)
  forwardFake : List Img → Img

/-- Value stored under one checkpoint key: a state dict of weights or
an optimizer state (both flattened to scalar lists). -/
inductive CkptVal where
  | sd : List ℚ → CkptVal
  | opt : List ℚ → CkptVal
deriving DecidableEq, Repr

/-- A checkpoint record as written by `torch.save`: an association list
from key to value. -/
def Checkpoint := List (String × CkptVal)
deriving DecidableEq, Repr

/-- Observable side effects of the training code, in program order. -/
inductive Event where
  | genForward : Event
  | zeroGradD : Event
  | zeroGradG : Event
  | backward : ℚ → Event
  | optDStep : Event
  | optGStep : Event
  | emaUpdate : Event
  | logLine : Event
  | backupParams : List ℚ → Event
  | loadParams : List ℚ → Event
  | saveCkpt : String → Checkpoint → Event
deriving DecidableEq, Repr

/-- Real-label branch of `train_d` (train.py lines 39-48): draw the
quadrant index, forward the discriminator, build the hinge loss plus
the three perceptual reconstruction terms, run backward, and return
the mean prediction together with the reconstructions.  The quadrant
crop is unwrapped with a junk default that is never reached because
`random.randint(0, 3)` stays in range. -/
def train_d_real (env : DEnv) (net : DNet) (data : Img) (g : RNG) :
    (ℚ × Img × Img × Img) × RNG × List Event :=
  let pr := randint g 0 3
  let part := pr.1
  let g1 := pr.2
  let out := net.forwardReal data part
  let pred := out.1
  let rec_all := out.2.1
  let rec_small := out.2.2.1
  let rec_part := out.2.2.2
  let ur := randLike g1 pred
  let u := ur.1
  let g2 := ur.2
  let err :=
    (relu (((u.scale 0.2).addC 0.8).sub pred)).mean
    + (env.percept rec_all (env.interpolate data rec_all.h)).sum
    + (env.percept rec_small (env.interpolate data rec_small.h)).sum
    + (env.percept rec_part
        (env.interpolate ((crop_image_by_part data part).getD data) rec_part.h)).sum
  ((pred.mean, rec_all, rec_small, rec_part), g2, [Event.backward err])

/-- Fake-label branch of `train_d` (train.py lines 49-53): forward the
discriminator, build the sign-flipped hinge loss, run backward, and
return the mean prediction. -/
def train_d_fake (env : DEnv) (net : DNet) (data : List Img) (g : RNG) :
    ℚ × RNG × List Event :=
  let pred := net.forwardFake data
  let ur := randLike g pred
  let u := ur.1
  let g2 := ur.2
  let err := (relu (((u.scale 0.2).addC 0.8).add pred)).mean
  (pred.mean, g2, [Event.backward err])

/-- One scalar EMA update, `avg_p.mul_(0.999).add_(0.001 * p.data)`
(train.py line 156). -/
def emaStep (shadow p : ℚ) : ℚ := shadow * 0.999 + 0.001 * p

/-- Shadow value after `n` EMA updates against the fixed parameter
value `p`. -/
def emaIter (p s0 : ℚ) : ℕ → ℚ
  | 0 => s0
  | n + 1 => emaStep (emaIter p s0 n) p

/-- The base save interval, the local `save_interval = 1000` of
`train` (train.py line 69). -/
def saveInterval : ℕ := 1000

/-- External collaborators of the training loop: the discriminator
environment, the opaque networks, the infinite data source, the noise
sampler, differentiable augmentation, and the two optimizer step
functions mapping an optimizer state and the current parameters to the
post-step parameters and state. -/
structure TEnv where
  denv : DEnv
  netD : DNet
  batchAt : ℕ → Img
  noiseAt : ℕ → Img
  diffAug : Img → Img
  gForward : List ℚ → Img → List Img
  stepG : List ℚ → List ℚ → List ℚ × List ℚ
  stepD : List ℚ → List ℚ → List ℚ × List ℚ

/-- Run configuration taken from the parsed arguments. -/
structure Cfg where
  totalIterations : ℕ
  startIter : ℕ
  modelFolder : String
  modelName : String

/-- Mutable state of the training loop: generator and discriminator
parameters (flattened), the EMA shadow `avg_param_G`, both optimizer
states, the random state and the data cursor. -/
structure TState where
  gParams : List ℚ
  dParams : List ℚ
  avgParamG : List ℚ
  optG : List ℚ
  optD : List ℚ
  rng : RNG
  dataPos : ℕ

/-- The fake batch handed to the fake-label discriminator step
(train.py line 144): the augmented generator outputs with every scale
detached. -/
def fakeBatchForD (env : TEnv) (st : TState) (iteration : ℕ) : List Img :=
  (((env.gForward st.gParams (env.noiseAt iteration)).map env.diffAug).map detach)

/-- One iteration of the training loop (train.py lines 129-176),
returning the next state and the trace of observable effects.  The two
periodic parameter round-trips (lines 162-165 and 168-171) are written
out literally: back up the live parameters, load the shadow, load the
backup; the checkpoint write happens after the restore. -/
def iterBody (env : TEnv) (cfg : Cfg) (st : TState) (iteration : ℕ) :
    TState × List Event :=
  let real_image := env.diffAug (env.batchAt st.dataPos)
  let fake_images := (env.gForward st.gParams (env.noiseAt iteration)).map env.diffAug
  let outR := train_d_real env.denv env.netD real_image st.rng
  let g1 := outR.2.1
  let evR := outR.2.2
  let outF := train_d_fake env.denv env.netD (fakeBatchForD env st iteration) g1
  let g2 := outF.2.1
  let evF := outF.2.2
  let stepped_d := env.stepD st.optD st.dParams
  let dp := stepped_d.1
  let od := stepped_d.2
  let pred_g := env.netD.forwardFake fake_images
  let err_g := -(pred_g.mean)
  let stepped_g := env.stepG st.optG st.gParams
  let gp := stepped_g.1
  let og := stepped_g.2
  let avg := List.zipWith (fun p avg_p => emaStep avg_p p) gp st.avgParamG
  let path := cfg.modelFolder ++ "/" ++ cfg.modelName
  let ck : Checkpoint :=
    [("g", CkptVal.sd gp), ("d", CkptVal.sd dp), ("g_ema", CkptVal.sd avg),
     ("opt_g", CkptVal.opt og), ("opt_d", CkptVal.opt od)]
  let evLog := if iteration % saveInterval = 0 then [Event.logLine] else []
  let evRT :=
    if iteration % (saveInterval * 10) = 0 then
      [Event.backupParams gp, Event.loadParams avg, Event.loadParams gp]
    else []
  let evSave :=
    if 0 < iteration ∧ (iteration % (saveInterval * 50) = 0 ∨ iteration = cfg.totalIterations) then
      [Event.backupParams gp, Event.loadParams avg, Event.loadParams gp,
       Event.saveCkpt path ck]
    else []
  ({ st with gParams := gp, dParams := dp, avgParamG := avg,
             optG := og, optD := od, rng := g2, dataPos := st.dataPos + 1 },
   Event.genForward :: Event.zeroGradD ::
     (evR ++ evF ++ Event.optDStep :: Event.zeroGradG :: Event.backward err_g ::
       Event.optGStep :: Event.emaUpdate :: (evLog ++ evRT ++ evSave)))

/-- Checkpoint records written in a trace, in order. -/
def savedCkpts (tr : List Event) : List (String × Checkpoint) :=
  tr.filterMap fun e =>
    match e with
    | Event.saveCkpt p ck => some (p, ck)
    | _ => none

/-! Spec-side formulations, written from the words of the
specification, to be compared with the source embedding above. -/

/-- Spec formulation of the real-path hinge term: elementwise
`relu(0.8 + 0.2 * U - pred)`. -/
def specHingeReal (u pred : Img) : Img :=
  relu (((constLike pred 0.8).add (u.scale 0.2)).sub pred)

/-- Spec formulation of the fake-path hinge term: elementwise
`relu(0.8 + 0.2 * U + pred)`. -/
def specHingeFake (u pred : Img) : Img :=
  relu (((constLike pred 0.8).add (u.scale 0.2)).add pred)

/-- Spec formulation of the quadrant crop: the input split in half
along each spatial dimension, with the chosen index selecting
top-left, top-right, bottom-left or bottom-right. -/
def specQuadrant (img : Img) (part : ℤ) : Img :=
  let hh := img.h / 2
  let hw := img.w / 2
  if part = 0 then { img with h := hh, w := hw, px := fun b c i j => img.px b c i j }
  else if part = 1 then { img with h := hh, w := hw, px := fun b c i j => img.px b c i (hw + j) }
  else if part = 2 then { img with h := hh, w := hw, px := fun b c i j => img.px b c (hh + i) j }
  else if part = 3 then { img with h := hh, w := hw, px := fun b c i j => img.px b c (hh + i) (hw + j) }
  else img

/-- Spec formulation of the real-path discriminator loss: the hinge
term averaged over the batch, plus the sum over the three
reconstruction scales of the perceptual distance between each
reconstruction and the real input resized to that reconstruction's
resolution, the part scale comparing against the selected quadrant of
the real input. -/
def specRealLoss (env : DEnv) (data u pred rec_all rec_small rec_part : Img)
    (part : ℤ) : ℚ :=
  (specHingeReal u pred).mean
  + (env.percept rec_all (env.interpolate data rec_all.h)).sum
  + (env.percept rec_small (env.interpolate data rec_small.h)).sum
  + (env.percept rec_part (env.interpolate (specQuadrant data part) rec_part.h)).sum

/-- Spec formulation of the fake-path discriminator loss: the
sign-flipped hinge term averaged over the batch. -/
def specFakeLoss (u pred : Img) : ℚ := (specHingeFake u pred).mean

/-! Checkpoint loading (train.py lines 115-123). -/

/-- One named tensor of a state dict: name, shape, and a scalar
standing for its contents. -/
structure SDEntry where
  name : String
  shape : List ℕ
  val : ℚ
deriving DecidableEq, Repr

/-- A bare tensor (shape and contents) as stored in the EMA shadow
list and in optimizer states. -/
def TensorS := List ℕ × ℚ
deriving DecidableEq, Repr

/-- Removal of every occurrence of the seven characters `module.`
from a character list, scanning left to right without overlap. -/
def stripModuleChars : List Char → List Char
  | 'm' :: 'o' :: 'd' :: 'u' :: 'l' :: 'e' :: '.' :: rest => stripModuleChars rest
  | c :: rest => c :: stripModuleChars rest
  | [] => []

/-- Key normalization applied before loading,
`k.replace("module.", "")` (train.py lines 118-119): every occurrence
of the distributed-training name marker is removed. -/
def stripModule (s : String) : String := String.mk (stripModuleChars s.data)

/-- Loading of one model entry from a checkpoint state dict.
Modelled from the spec: `load_state_dict(..., strict=False)` of the
external framework is not in `src/`; per the spec's load contract,
keys missing from the checkpoint keep the current (freshly
initialized) value, present keys replace the value when the shapes
agree, and a shape mismatch is an error. -/
def loadEntry (ckpt : List SDEntry) (e : SDEntry) : Except String SDEntry :=
  match ckpt.find? (fun ce => ce.name == e.name) with
  | none => Except.ok e
  | some ce =>
      if ce.shape = e.shape then Except.ok { e with val := ce.val }
      else Except.error "size mismatch"

/-- Non-strict state-dict load over a whole model: each model entry is
resolved against the checkpoint in order. -/
def loadStateDictLoose : List SDEntry → List SDEntry → Except String (List SDEntry)
  | [], _ => Except.ok []
  | e :: rest, ckpt => do
      let r ← loadEntry ckpt e
      let rs ← loadStateDictLoose rest ckpt
      return r :: rs

/-- Key normalization over a whole checkpoint state dict,
`{k.replace("module.", ""): v for k, v in ckpt[...].items()}`. -/
def stripKeys (l : List SDEntry) : List SDEntry :=
  l.map fun e => { e with name := stripModule e.name }

/-- A checkpoint file as read by `torch.load`: the five records saved
by the trainer. -/
structure CkptFile where
  g : List SDEntry
  d : List SDEntry
  g_ema : List TensorS
  opt_g : List TensorS
  opt_d : List TensorS

/-- The state produced by the load path. -/
structure LoadedState where
  netG : List SDEntry
  netD : List SDEntry
  avg_param_G : List TensorS
  optG : List TensorS
  optD : List TensorS
deriving DecidableEq

/-- The checkpoint load path (train.py lines 115-123): both networks
load with `module.` keys stripped and `strict=False`; the EMA shadow
is installed by plain assignment with no validation; the optimizer
states go through the external optimizer loader `optLoad`. -/
def loadCheckpoint (optLoad : List TensorS → List TensorS → Except String (List TensorS))
    (netG0 netD0 : List SDEntry) (avg0 : List TensorS) (og0 od0 : List TensorS)
    (ck : CkptFile) : Except String LoadedState := do
  let g ← loadStateDictLoose netG0 (stripKeys ck.g)
  let d ← loadStateDictLoose netD0 (stripKeys ck.d)
  let avg := ck.g_ema
  let og ← optLoad og0 ck.opt_g
  let od ← optLoad od0 ck.opt_d
  return { netG := g, netD := d, avg_param_G := avg, optG := og, optD := od }

/-! Concrete instances used to evaluate the development on explicit
inputs. -/

/-- The empty image. -/
def img0 : Img := { b := 0, c := 0, h := 0, w := 0, px := fun _ _ _ _ => 0, rg := false }

/-- A zero random state. -/
def rng0 : RNG := { ints := fun _ => 0, reals := fun _ => 0, ipos := 0, rpos := 0 }

/-- A trivial discriminator environment. -/
def denv0 : DEnv := { percept := fun _ _ => [], interpolate := fun t _ => t }

/-- A trivial discriminator. -/
def dnet0 : DNet := { forwardReal := fun _ _ => (img0, (img0, img0, img0)),
                      forwardFake := fun _ => img0 }

/-- A concrete loop environment whose generator optimizer step moves
the single generator parameter to `1`. -/
def tenv0 : TEnv :=
  { denv := denv0, netD := dnet0,
    batchAt := fun _ => img0, noiseAt := fun _ => img0,
    diffAug := fun t => t, gForward := fun _ _ => [],
    stepG := fun o _ => ([1], o), stepD := fun o p => (p, o) }

/-- A concrete starting state with one generator parameter `5` and
shadow `0`. -/
def st0 : TState :=
  { gParams := [5], dParams := [], avgParamG := [0], optG := [], optD := [],
    rng := rng0, dataPos := 0 }

/-- A one-iteration run configuration. -/
def cfg0 : Cfg := { totalIterations := 1, startIter := 0, modelFolder := "f", modelName := "m" }

/-- A run configuration whose total is exactly the coarse save
interval. -/
def cfg50k : Cfg := { totalIterations := 50000, startIter := 0, modelFolder := "f", modelName := "m" }

/-- A pass-through optimizer loader used for concrete evaluation. -/
def optLoadPass : List TensorS → List TensorS → Except String (List TensorS) :=
  fun o _ => Except.ok o

/-- A one-parameter generator model for concrete evaluation. -/
def netG1 : List SDEntry := [{ name := "weight", shape := [2, 2], val := 0 }]

/-- A checkpoint whose weight key carries a distributed-training
name, whose weights match the model, and whose EMA shadow has a shape
matching nothing in the model. -/
def ck1 : CkptFile :=
  { g := [{ name := "module.weight", shape := [2, 2], val := 7 }],
    d := [], g_ema := [([3], 0)], opt_g := [], opt_d := [] }

/-- A concrete 2-by-2 single-image batch. -/
def img2 : Img :=
  { b := 1, c := 1, h := 2, w := 2, px := fun _ _ i j => (i : ℚ) * 2 + (j : ℚ), rg := true }

/-- The checkpoint record written by the concrete run `tenv0`, `cfg0`,
`st0` at iteration 1. -/
def ckX : Checkpoint :=
  [("g", CkptVal.sd [1]), ("d", CkptVal.sd []),
   ("g_ema", CkptVal.sd [emaStep 0 1]),
   ("opt_g", CkptVal.opt []), ("opt_d", CkptVal.opt [])]

/-!  Theorems.  -/

/-- A checkpoint record listed by `savedCkpts` comes from a save event
of the trace. -/
theorem savedCkpts_mem (tr : List Event) (p : String) (ck : Checkpoint)
    (h : (p, ck) ∈ savedCkpts tr) : Event.saveCkpt p ck ∈ tr := by
  unfold savedCkpts at h
  rw [List.mem_filterMap] at h
  obtain ⟨e, he, hfe⟩ := h
  cases e <;> simp_all

/-- Structure of one iteration's event trace: the fixed nine-step core
followed by the three conditional blocks (logging, the EMA swap
round-trip, and the checkpoint block). -/
theorem iterBody_trace (env : TEnv) (cfg : Cfg) (st : TState) (it : ℕ) :
    ∃ lR lF lG,
      (iterBody env cfg st it).2 =
        [Event.genForward, Event.zeroGradD, Event.backward lR, Event.backward lF,
         Event.optDStep, Event.zeroGradG, Event.backward lG, Event.optGStep,
         Event.emaUpdate]
        ++ ((if it % saveInterval = 0 then [Event.logLine] else [])
          ++ (if it % (saveInterval * 10) = 0 then
                [Event.backupParams (env.stepG st.optG st.gParams).1,
                 Event.loadParams (iterBody env cfg st it).1.avgParamG,
                 Event.loadParams (env.stepG st.optG st.gParams).1]
              else [])
          ++ (if 0 < it ∧ (it % (saveInterval * 50) = 0 ∨ it = cfg.totalIterations) then
                [Event.backupParams (env.stepG st.optG st.gParams).1,
                 Event.loadParams (iterBody env cfg st it).1.avgParamG,
                 Event.loadParams (env.stepG st.optG st.gParams).1,
                 Event.saveCkpt (cfg.modelFolder ++ "/" ++ cfg.modelName)
                   [("g", CkptVal.sd (iterBody env cfg st it).1.gParams),
                    ("d", CkptVal.sd (iterBody env cfg st it).1.dParams),
                    ("g_ema", CkptVal.sd (iterBody env cfg st it).1.avgParamG),
                    ("opt_g", CkptVal.opt (iterBody env cfg st it).1.optG),
                    ("opt_d", CkptVal.opt (iterBody env cfg st it).1.optD)]]
              else [])) :=
  ⟨_, _, _, rfl⟩

/-- Claim C2: each iteration performs exactly one EMA update; it sits
after the generator optimizer step of the same iteration, every event
after it is one of the conditional logging or checkpoint effects (in
particular no generator forward pass follows it within the iteration,
and every iteration trace begins with the generator forward pass, so
the update precedes the next iteration's forward pass), and the
resulting shadow is `shadow * 0.999 + 0.001 * param` over the
post-step parameters, in place. -/
theorem ema_update_once_per_iteration (env : TEnv) (cfg : Cfg) (st : TState) (it : ℕ) :
    (∃ pre post, (iterBody env cfg st it).2 = pre ++ Event.emaUpdate :: post
       ∧ Event.optGStep ∈ pre ∧ Event.genForward ∈ pre
       ∧ Event.emaUpdate ∉ pre ∧ Event.emaUpdate ∉ post ∧ Event.genForward ∉ post)
    ∧ (iterBody env cfg st it).2.head? = some Event.genForward
    ∧ (iterBody env cfg st it).1.avgParamG =
        List.zipWith (fun p avg_p => emaStep avg_p p)
          (iterBody env cfg st it).1.gParams st.avgParamG := by
  obtain ⟨lR, lF, lG, htr⟩ := iterBody_trace env cfg st it
  refine ⟨⟨[Event.genForward, Event.zeroGradD, Event.backward lR, Event.backward lF,
            Event.optDStep, Event.zeroGradG, Event.backward lG, Event.optGStep],
           _, htr, by simp, by simp, by simp,
           by split_ifs <;> simp, by split_ifs <;> simp⟩,
         by rw [htr]; rfl, rfl⟩

/-- Claim C7 (amended): within an executed iteration, a checkpoint is
written exactly when the iteration is positive and either a multiple
of fifty times the base save interval or equal to the final iteration
count. -/
theorem checkpoint_schedule_iff (env : TEnv) (cfg : Cfg) (st : TState) (it : ℕ) :
    (∃ p ck, Event.saveCkpt p ck ∈ (iterBody env cfg st it).2) ↔
      (0 < it ∧ (it % (saveInterval * 50) = 0 ∨ it = cfg.totalIterations)) := by
  obtain ⟨lR, lF, lG, htr⟩ := iterBody_trace env cfg st it
  constructor
  · rintro ⟨p, ck, hmem⟩
    by_cases hc : 0 < it ∧ (it % (saveInterval * 50) = 0 ∨ it = cfg.totalIterations)
    · exact hc
    · rw [htr, if_neg hc] at hmem
      split_ifs at hmem <;> simp_all
  · intro hc
    refine ⟨cfg.modelFolder ++ "/" ++ cfg.modelName,
      [("g", CkptVal.sd (iterBody env cfg st it).1.gParams),
       ("d", CkptVal.sd (iterBody env cfg st it).1.dParams),
       ("g_ema", CkptVal.sd (iterBody env cfg st it).1.avgParamG),
       ("opt_g", CkptVal.opt (iterBody env cfg st it).1.optG),
       ("opt_d", CkptVal.opt (iterBody env cfg st it).1.optD)], ?_⟩
    rw [htr, if_pos hc]
    simp

/-- Counterexample for claim C7 as stated: iteration 0 is a multiple
of fifty times the base save interval, yet the concrete run writes no
checkpoint at iteration 0 (the code requires `iteration > 0`). -/
theorem no_checkpoint_at_iteration_zero :
    0 % (saveInterval * 50) = 0
    ∧ savedCkpts (iterBody tenv0 cfg50k st0 0).2 = [] := by decide

/-- Claim C3 (amended): when the checkpoint condition holds, the trace
ends by backing up the live parameters, loading the EMA shadow into
the generator, restoring the backup, and only then saving; the saved
record holds the live (non-EMA) parameters under key `g` and the
shadow under `g_ema`, and the post-iteration live parameters are
exactly the optimizer-step output, never the shadow. -/
theorem checkpoint_swap_restored_before_save (env : TEnv) (cfg : Cfg) (st : TState)
    (it : ℕ)
    (h : 0 < it ∧ (it % (saveInterval * 50) = 0 ∨ it = cfg.totalIterations)) :
    (∃ pre, (iterBody env cfg st it).2 =
      pre ++ [Event.backupParams (iterBody env cfg st it).1.gParams,
              Event.loadParams (iterBody env cfg st it).1.avgParamG,
              Event.loadParams (iterBody env cfg st it).1.gParams,
              Event.saveCkpt (cfg.modelFolder ++ "/" ++ cfg.modelName)
                [("g", CkptVal.sd (iterBody env cfg st it).1.gParams),
                 ("d", CkptVal.sd (iterBody env cfg st it).1.dParams),
                 ("g_ema", CkptVal.sd (iterBody env cfg st it).1.avgParamG),
                 ("opt_g", CkptVal.opt (iterBody env cfg st it).1.optG),
                 ("opt_d", CkptVal.opt (iterBody env cfg st it).1.optD)]])
    ∧ (iterBody env cfg st it).1.gParams = (env.stepG st.optG st.gParams).1 := by
  obtain ⟨lR, lF, lG, htr⟩ := iterBody_trace env cfg st it
  refine ⟨⟨[Event.genForward, Event.zeroGradD, Event.backward lR, Event.backward lF,
            Event.optDStep, Event.zeroGradG, Event.backward lG, Event.optGStep,
            Event.emaUpdate]
          ++ ((if it % saveInterval = 0 then [Event.logLine] else [])
            ++ (if it % (saveInterval * 10) = 0 then
                  [Event.backupParams (env.stepG st.optG st.gParams).1,
                   Event.loadParams (iterBody env cfg st it).1.avgParamG,
                   Event.loadParams (env.stepG st.optG st.gParams).1]
                else [])), ?_⟩, rfl⟩
  rw [htr, if_pos h]
  simp only [List.append_assoc, List.cons_append, List.nil_append]
  rfl

/-- Witness for claim C3 (amended): the property at the concrete run
`tenv0`, `cfg0`, `st0` at its final iteration 1. -/
theorem checkpoint_swap_restored_before_save_witness :
    (0 < 1 ∧ (1 % (saveInterval * 50) = 0 ∨ 1 = cfg0.totalIterations))
    ∧ ((∃ pre, (iterBody tenv0 cfg0 st0 1).2 =
      pre ++ [Event.backupParams (iterBody tenv0 cfg0 st0 1).1.gParams,
              Event.loadParams (iterBody tenv0 cfg0 st0 1).1.avgParamG,
              Event.loadParams (iterBody tenv0 cfg0 st0 1).1.gParams,
              Event.saveCkpt (cfg0.modelFolder ++ "/" ++ cfg0.modelName)
                [("g", CkptVal.sd (iterBody tenv0 cfg0 st0 1).1.gParams),
                 ("d", CkptVal.sd (iterBody tenv0 cfg0 st0 1).1.dParams),
                 ("g_ema", CkptVal.sd (iterBody tenv0 cfg0 st0 1).1.avgParamG),
                 ("opt_g", CkptVal.opt (iterBody tenv0 cfg0 st0 1).1.optG),
                 ("opt_d", CkptVal.opt (iterBody tenv0 cfg0 st0 1).1.optD)]])
    ∧ (iterBody tenv0 cfg0 st0 1).1.gParams = (tenv0.stepG st0.optG st0.gParams).1) :=
  ⟨by decide, checkpoint_swap_restored_before_save tenv0 cfg0 st0 1 (by decide)⟩

/-- Counterexample for claim C3 as stated: in the concrete run the
single checkpoint written carries the live post-step parameter `[1]`
under key `g`, while the EMA shadow is `[emaStep 0 1]`, and
`emaStep 0 1 ≠ 1`, so the saved generator weights are not the shadow
values. -/
theorem checkpoint_saves_live_not_shadow :
    savedCkpts (iterBody tenv0 cfg0 st0 1).2 = [("f/m", ckX)]
    ∧ (iterBody tenv0 cfg0 st0 1).1.avgParamG = [emaStep 0 1]
    ∧ emaStep 0 1 ≠ 1 := by
  refine ⟨rfl, rfl, ?_⟩
  norm_num [emaStep]

/-- Claim C6: every checkpoint event of an iteration writes to the one
per-run path and carries exactly the five keys `g`, `d`, `g_ema`,
`opt_g`, `opt_d`, holding the current generator parameters, current
discriminator parameters, the EMA shadow, and the two optimizer
states. -/
theorem checkpoint_record_exact (env : TEnv) (cfg : Cfg) (st : TState) (it : ℕ)
    (p : String) (ck : Checkpoint)
    (hmem : Event.saveCkpt p ck ∈ (iterBody env cfg st it).2) :
    p = cfg.modelFolder ++ "/" ++ cfg.modelName
    ∧ ck.map Prod.fst = ["g", "d", "g_ema", "opt_g", "opt_d"]
    ∧ ck = [("g", CkptVal.sd (iterBody env cfg st it).1.gParams),
            ("d", CkptVal.sd (iterBody env cfg st it).1.dParams),
            ("g_ema", CkptVal.sd (iterBody env cfg st it).1.avgParamG),
            ("opt_g", CkptVal.opt (iterBody env cfg st it).1.optG),
            ("opt_d", CkptVal.opt (iterBody env cfg st it).1.optD)] := by
  obtain ⟨lR, lF, lG, htr⟩ := iterBody_trace env cfg st it
  rw [htr] at hmem
  split_ifs at hmem <;> simp_all

/-- Means of two images agree when their dimensions and pixel values
agree. -/
theorem Img.mean_congr (a b : Img) (hb : a.b = b.b) (hc : a.c = b.c) (hh : a.h = b.h)
    (hw : a.w = b.w) (hpx : ∀ i j k l, a.px i j k l = b.px i j k l) : a.mean = b.mean := by
  unfold Img.mean Img.sum Img.numel
  rw [hb, hc, hh, hw]
  congr 1
  refine Finset.sum_congr rfl fun x _ => ?_
  refine Finset.sum_congr rfl fun y _ => ?_
  refine Finset.sum_congr rfl fun z _ => ?_
  refine Finset.sum_congr rfl fun t _ => ?_
  exact hpx x y z t

/-- The code fake-path hinge expression equals the spec one when the
margin tensor has the prediction tensor shape. -/
theorem fake_hinge_eq (u pred : Img) (hb : u.b = pred.b) (hc : u.c = pred.c)
    (hh : u.h = pred.h) (hw : u.w = pred.w) :
    (relu (((u.scale 0.2).addC 0.8).add pred)).mean = specFakeLoss u pred := by
  unfold specFakeLoss specHingeFake
  apply Img.mean_congr
  · exact hb
  · exact hc
  · exact hh
  · exact hw
  · intro i j k l
    show max (u.px i j k l * 0.2 + 0.8 + pred.px i j k l) 0 =
      max (0.8 + u.px i j k l * 0.2 + pred.px i j k l) 0
    congr 1
    ring

/-- The code real-path hinge expression equals the spec one when the
margin tensor has the prediction tensor shape. -/
theorem real_hinge_eq (u pred : Img) (hb : u.b = pred.b) (hc : u.c = pred.c)
    (hh : u.h = pred.h) (hw : u.w = pred.w) :
    (relu (((u.scale 0.2).addC 0.8).sub pred)).mean = (specHingeReal u pred).mean := by
  unfold specHingeReal
  apply Img.mean_congr
  · exact hb
  · exact hc
  · exact hh
  · exact hw
  · intro i j k l
    show max (u.px i j k l * 0.2 + 0.8 - pred.px i j k l) 0 =
      max (0.8 + u.px i j k l * 0.2 - pred.px i j k l) 0
    congr 1
    ring

/-- On an even square image with an in-range part index, the source
crop agrees with the spec quadrant. -/
theorem crop_getD_eq_specQuadrant (img : Img) (part : ℤ) (hs : img.h = img.w)
    (he : Even img.h) (h0 : 0 ≤ part) (h4 : part < 4) :
    (crop_image_by_part img part).getD img = specQuadrant img part := by
  obtain ⟨m, hm⟩ := he
  have h2 : img.h / 2 = img.w / 2 := by rw [hs]
  have hminw : min (img.h / 2) img.w = img.w / 2 := by
    rw [h2]
    exact Nat.min_eq_left (Nat.div_le_self _ _)
  have hsubh : img.h - img.h / 2 = img.h / 2 := by omega
  have hsubw : img.w - img.h / 2 = img.w / 2 := by
    rw [h2, ← hs]
    exact hsubh
  have hcases : part = 0 ∨ part = 1 ∨ part = 2 ∨ part = 3 := by omega
  rcases hcases with h | h | h | h <;> subst h <;>
    simp only [crop_image_by_part, specQuadrant, Option.getD_some] <;> norm_num
  · exact ⟨Nat.div_le_self _ _, hminw⟩
  · exact ⟨Nat.div_le_self _ _, hsubw, by funext b c i j; rw [h2]⟩
  · exact ⟨hsubh, hminw⟩
  · exact ⟨hsubh, hsubw, by funext b c i j; rw [h2]⟩

/-- Witness for claim C6: the checkpoint record of the concrete run at
iteration 1. -/
theorem checkpoint_record_exact_witness :
    "f/m" = cfg0.modelFolder ++ "/" ++ cfg0.modelName
    ∧ ckX.map Prod.fst = ["g", "d", "g_ema", "opt_g", "opt_d"]
    ∧ ckX = [("g", CkptVal.sd (iterBody tenv0 cfg0 st0 1).1.gParams),
             ("d", CkptVal.sd (iterBody tenv0 cfg0 st0 1).1.dParams),
             ("g_ema", CkptVal.sd (iterBody tenv0 cfg0 st0 1).1.avgParamG),
             ("opt_g", CkptVal.opt (iterBody tenv0 cfg0 st0 1).1.optG),
             ("opt_d", CkptVal.opt (iterBody tenv0 cfg0 st0 1).1.optD)] :=
  checkpoint_record_exact tenv0 cfg0 st0 1 "f/m" ckX
    (savedCkpts_mem _ _ _
      (by rw [show savedCkpts (iterBody tenv0 cfg0 st0 1).2 = [("f/m", ckX)] from rfl]
          exact List.mem_singleton.mpr rfl))

/-- Claim C8: with the generator frozen at the fixed value `P`, after
`N` consecutive EMA updates the distance of the shadow from `P` is
exactly `0.999 ^ N` times the initial distance. -/
theorem ema_fixed_point_convergence (P s0 : ℚ) (N : ℕ) :
    |emaIter P s0 N - P| = (0.999 : ℚ) ^ N * |s0 - P| := by
  induction N with
  | zero => simp [emaIter]
  | succ n ih =>
      rw [show emaIter P s0 (n + 1) - P = (0.999 : ℚ) * (emaIter P s0 n - P) by
        simp [emaIter, emaStep]; ring]
      rw [abs_mul, ih, abs_of_nonneg (by norm_num : (0 : ℚ) ≤ (0.999 : ℚ))]
      ring

/-- Claim C10: `crop_image_by_part` returns a value exactly when the
part index is one of 0, 1, 2, 3 (any other integer falls through every
branch and yields `none`), and the quadrant index drawn by
`random.randint(0, 3)` always lies in that range, so every internal
call is defined. -/
theorem crop_defined_iff_part_in_range (image : Img) (part : ℤ) :
    (crop_image_by_part image part = none ↔
      ¬(part = 0 ∨ part = 1 ∨ part = 2 ∨ part = 3))
    ∧ (∀ g : RNG, 0 ≤ (randint g 0 3).1 ∧ (randint g 0 3).1 ≤ 3
        ∧ (crop_image_by_part image (randint g 0 3).1).isSome = true) := by
  constructor
  · unfold crop_image_by_part
    split_ifs with h0 h1 h2 h3 <;> simp_all
  · intro g
    have h0 : (0 : ℤ) ≤ (g.ints g.ipos : ℤ) % 4 :=
      Int.emod_nonneg _ (by norm_num)
    have h4 : (g.ints g.ipos : ℤ) % 4 < 4 :=
      Int.emod_lt_of_pos _ (by norm_num)
    have hr : (randint g 0 3).1 = (g.ints g.ipos : ℤ) % 4 := by
      simp [randint]
    refine ⟨by omega, by omega, ?_⟩
    have : (randint g 0 3).1 = 0 ∨ (randint g 0 3).1 = 1 ∨
        (randint g 0 3).1 = 2 ∨ (randint g 0 3).1 = 3 := by omega
    rcases this with h | h | h | h <;> simp [crop_image_by_part, h]

/-- Claim C9: on an image whose spatial height and width are equal and
even, each of the four quadrant crops is the half-size window reading
the source pixels given by `partSrcN`, and every source pixel is read
by exactly one (part, row, column) triple: the quadrants are pairwise
disjoint and cover the image exactly once. -/
theorem quadrant_crops_partition (img : Img) (hs : img.h = img.w) (he : Even img.h) :
    (∀ p : ℤ, 0 ≤ p → p < 4 →
      ∃ ci, crop_image_by_part img p = some ci ∧ ci.h = img.h / 2 ∧ ci.w = img.h / 2 ∧
        ∀ b c i j, ci.px b c i j =
          img.px b c (partSrcN (img.h / 2) p.toNat i j).1 (partSrcN (img.h / 2) p.toNat i j).2)
    ∧ (∀ r c, r < img.h → c < img.w →
        ∃! t : ℕ × ℕ × ℕ, (t.1 < 4 ∧ t.2.1 < img.h / 2 ∧ t.2.2 < img.h / 2) ∧
          partSrcN (img.h / 2) t.1 t.2.1 t.2.2 = (r, c)) := by
  obtain ⟨m, hm⟩ := he
  have hmin : min (img.h / 2) img.h = img.h / 2 := Nat.min_eq_left (Nat.div_le_self _ _)
  have hminw : min (img.h / 2) img.w = img.h / 2 := by rw [← hs]; exact hmin
  have hsub : img.h - img.h / 2 = img.h / 2 := by omega
  have hsubw : img.w - img.h / 2 = img.h / 2 := by omega
  constructor
  · intro p hp0 hp4
    have hcases : p = 0 ∨ p = 1 ∨ p = 2 ∨ p = 3 := by omega
    rcases hcases with h | h | h | h <;> subst h
    · exact ⟨_, rfl, hmin, hminw, fun b c i j => by simp [partSrcN]⟩
    · exact ⟨_, rfl, hmin, hsubw, fun b c i j => by simp [partSrcN]⟩
    · exact ⟨_, rfl, hsub, hminw, fun b c i j => by simp [partSrcN]⟩
    · exact ⟨_, rfl, hsub, hsubw, fun b c i j => by simp [partSrcN]⟩
  · intro r c hr hc
    rw [← hs] at hc
    rcases Nat.lt_or_ge r m with hr1 | hr1 <;> rcases Nat.lt_or_ge c m with hc1 | hc1
    · refine ⟨(0, r, c),
        ⟨⟨by omega, by show r < img.h / 2; omega, by show c < img.h / 2; omega⟩, ?_⟩, ?_⟩
      · show partSrcN (img.h / 2) 0 r c = (r, c)
        simp [partSrcN]
      · rintro ⟨p, i, j⟩ ⟨⟨hp4, hi, hj⟩, heq⟩
        simp only at hp4 hi hj heq
        interval_cases p <;> simp [partSrcN] at heq ⊢ <;> omega
    · refine ⟨(1, r, c - m),
        ⟨⟨by omega, by show r < img.h / 2; omega, by show c - m < img.h / 2; omega⟩, ?_⟩, ?_⟩
      · show partSrcN (img.h / 2) 1 r (c - m) = (r, c)
        simp [partSrcN]
        omega
      · rintro ⟨p, i, j⟩ ⟨⟨hp4, hi, hj⟩, heq⟩
        simp only at hp4 hi hj heq
        interval_cases p <;> simp [partSrcN] at heq ⊢ <;> omega
    · refine ⟨(2, r - m, c),
        ⟨⟨by omega, by show r - m < img.h / 2; omega, by show c < img.h / 2; omega⟩, ?_⟩, ?_⟩
      · show partSrcN (img.h / 2) 2 (r - m) c = (r, c)
        simp [partSrcN]
        omega
      · rintro ⟨p, i, j⟩ ⟨⟨hp4, hi, hj⟩, heq⟩
        simp only at hp4 hi hj heq
        interval_cases p <;> simp [partSrcN] at heq ⊢ <;> omega
    · refine ⟨(3, r - m, c - m),
        ⟨⟨by omega, by show r - m < img.h / 2; omega, by show c - m < img.h / 2; omega⟩, ?_⟩, ?_⟩
      · show partSrcN (img.h / 2) 3 (r - m) (c - m) = (r, c)
        simp [partSrcN]
        omega
      · rintro ⟨p, i, j⟩ ⟨⟨hp4, hi, hj⟩, heq⟩
        simp only at hp4 hi hj heq
        interval_cases p <;> simp [partSrcN] at heq ⊢ <;> omega

/-- Witness for claim C9: the partition property instantiated on a
concrete even square image. -/
theorem quadrant_crops_partition_witness :
    (img2.h = img2.w ∧ Even img2.h)
    ∧ ((∀ p : ℤ, 0 ≤ p → p < 4 →
      ∃ ci, crop_image_by_part img2 p = some ci ∧ ci.h = img2.h / 2 ∧ ci.w = img2.h / 2 ∧
        ∀ b c i j, ci.px b c i j =
          img2.px b c (partSrcN (img2.h / 2) p.toNat i j).1 (partSrcN (img2.h / 2) p.toNat i j).2)
    ∧ (∀ r c, r < img2.h → c < img2.w →
        ∃! t : ℕ × ℕ × ℕ, (t.1 < 4 ∧ t.2.1 < img2.h / 2 ∧ t.2.2 < img2.h / 2) ∧
          partSrcN (img2.h / 2) t.1 t.2.1 t.2.2 = (r, c))) :=
  ⟨⟨by decide, by decide⟩, quadrant_crops_partition img2 (by decide) (by decide)⟩

/-- Claim C5: the fake-label discriminator step forwards the
discriminator on the batch it is given, draws a fresh margin tensor
from the current sampler position with exactly the prediction's shape
(advancing the sampler so that each call reads fresh positions), runs
one backward pass with loss `relu(0.8 + 0.2 U + pred)` averaged over
the batch (sign of `pred` flipped relative to the real path), returns
the mean prediction, and in the training loop the batch handed to this
step is the generator output with every scale detached. -/
theorem train_d_fake_matches_spec (env : DEnv) (net : DNet) (data : List Img) (g : RNG) :
    (train_d_fake env net data g =
      ((net.forwardFake data).mean,
       { g with rpos := g.rpos + (net.forwardFake data).numel },
       [Event.backward
         (specFakeLoss (randLike g (net.forwardFake data)).1 (net.forwardFake data))]))
    ∧ ((randLike g (net.forwardFake data)).1.b = (net.forwardFake data).b
       ∧ (randLike g (net.forwardFake data)).1.c = (net.forwardFake data).c
       ∧ (randLike g (net.forwardFake data)).1.h = (net.forwardFake data).h
       ∧ (randLike g (net.forwardFake data)).1.w = (net.forwardFake data).w)
    ∧ (∀ b c i j, (randLike g (net.forwardFake data)).1.px b c i j =
        g.reals (g.rpos + flatIdx (net.forwardFake data) b c i j))
    ∧ (∀ env2 : TEnv, ∀ st : TState, ∀ it : ℕ,
        ∀ x ∈ fakeBatchForD env2 st it, x.rg = false) := by
  refine ⟨?_, ⟨rfl, rfl, rfl, rfl⟩, fun b c i j => rfl, ?_⟩
  · unfold train_d_fake
    refine Prod.ext rfl (Prod.ext rfl ?_)
    show [Event.backward
        ((relu ((((randLike g (net.forwardFake data)).1.scale 0.2).addC 0.8).add
          (net.forwardFake data))).mean)] = _
    rw [fake_hinge_eq ((randLike g (net.forwardFake data)).1) (net.forwardFake data)
      rfl rfl rfl rfl]
  · intro env2 st it x hx
    simp only [fakeBatchForD, List.mem_map] at hx
    obtain ⟨y, _, hy⟩ := hx
    rw [← hy]
    rfl

/-- Claim C1: on an even square real batch the real-label
discriminator step draws the quadrant index by `randint(0, 3)`,
forwards the discriminator, runs exactly one backward pass whose loss
is the randomized-margin hinge term averaged over the batch plus the
three perceptual reconstruction terms against the resized input (the
part term against the resized selected quadrant), performs no
optimizer step, returns the mean prediction and the three
reconstructions, and the margin tensor is a fresh uniform draw of the
prediction's shape (elementwise inside `[0,1)` whenever the sampler
stream is). -/
theorem train_d_real_matches_spec (env : DEnv) (net : DNet) (data : Img) (g : RNG)
    (hs : data.h = data.w) (he : Even data.h) :
    (train_d_real env net data g =
      (((net.forwardReal data (randint g 0 3).1).1.mean,
        (net.forwardReal data (randint g 0 3).1).2.1,
        (net.forwardReal data (randint g 0 3).1).2.2.1,
        (net.forwardReal data (randint g 0 3).1).2.2.2),
       { (randint g 0 3).2 with
           rpos := (randint g 0 3).2.rpos + (net.forwardReal data (randint g 0 3).1).1.numel },
       [Event.backward
         (specRealLoss env data
           (randLike (randint g 0 3).2 (net.forwardReal data (randint g 0 3).1).1).1
           (net.forwardReal data (randint g 0 3).1).1
           (net.forwardReal data (randint g 0 3).1).2.1
           (net.forwardReal data (randint g 0 3).1).2.2.1
           (net.forwardReal data (randint g 0 3).1).2.2.2
           (randint g 0 3).1)]))
    ∧ ((∀ n, 0 ≤ g.reals n ∧ g.reals n < 1) →
       ∀ b c i j,
         0 ≤ (randLike (randint g 0 3).2 (net.forwardReal data (randint g 0 3).1).1).1.px b c i j
         ∧ (randLike (randint g 0 3).2 (net.forwardReal data (randint g 0 3).1).1).1.px b c i j < 1) := by
  have hm0 : (0 : ℤ) ≤ (g.ints g.ipos : ℤ) % 4 := Int.emod_nonneg _ (by norm_num)
  have hm4 : (g.ints g.ipos : ℤ) % 4 < 4 := Int.emod_lt_of_pos _ (by norm_num)
  have hr : (randint g 0 3).1 = (g.ints g.ipos : ℤ) % 4 := by simp [randint]
  have h0 : 0 ≤ (randint g 0 3).1 := by omega
  have h4 : (randint g 0 3).1 < 4 := by omega
  constructor
  · unfold train_d_real
    refine Prod.ext rfl (Prod.ext rfl ?_)
    simp only [List.cons.injEq, Event.backward.injEq, and_true]
    unfold specRealLoss
    rw [real_hinge_eq
        ((randLike (randint g 0 3).2 (net.forwardReal data (randint g 0 3).1).1).1)
        ((net.forwardReal data (randint g 0 3).1).1) rfl rfl rfl rfl,
      crop_getD_eq_specQuadrant data ((randint g 0 3).1) hs he h0 h4]
  · intro hreal b c i j
    exact hreal _

/-- Witness for claim C1: the real-step property instantiated on the
concrete even square batch `img2` with the trivial collaborators. -/
theorem train_d_real_matches_spec_witness :
    (img2.h = img2.w ∧ Even img2.h)
    ∧ ((train_d_real denv0 dnet0 img2 rng0 =
      (((dnet0.forwardReal img2 (randint rng0 0 3).1).1.mean,
        (dnet0.forwardReal img2 (randint rng0 0 3).1).2.1,
        (dnet0.forwardReal img2 (randint rng0 0 3).1).2.2.1,
        (dnet0.forwardReal img2 (randint rng0 0 3).1).2.2.2),
       { (randint rng0 0 3).2 with
           rpos := (randint rng0 0 3).2.rpos
             + (dnet0.forwardReal img2 (randint rng0 0 3).1).1.numel },
       [Event.backward
         (specRealLoss denv0 img2
           (randLike (randint rng0 0 3).2 (dnet0.forwardReal img2 (randint rng0 0 3).1).1).1
           (dnet0.forwardReal img2 (randint rng0 0 3).1).1
           (dnet0.forwardReal img2 (randint rng0 0 3).1).2.1
           (dnet0.forwardReal img2 (randint rng0 0 3).1).2.2.1
           (dnet0.forwardReal img2 (randint rng0 0 3).1).2.2.2
           (randint rng0 0 3).1)]))
    ∧ ((∀ n, 0 ≤ rng0.reals n ∧ rng0.reals n < 1) →
       ∀ b c i j,
         0 ≤ (randLike (randint rng0 0 3).2
               (dnet0.forwardReal img2 (randint rng0 0 3).1).1).1.px b c i j
         ∧ (randLike (randint rng0 0 3).2
               (dnet0.forwardReal img2 (randint rng0 0 3).1).1).1.px b c i j < 1)) :=
  ⟨⟨rfl, by decide⟩, train_d_real_matches_spec denv0 dnet0 img2 rng0 rfl (by decide)⟩

/-- A loose state-dict load succeeds elementwise when every model
entry resolves successfully. -/
theorem loadStateDictLoose_ok (ckpt : List SDEntry) (l : List SDEntry)
    (h : ∀ a ∈ l, ∃ b, loadEntry ckpt a = Except.ok b) :
    ∃ l2, loadStateDictLoose l ckpt = Except.ok l2
      ∧ List.Forall₂ (fun a b => loadEntry ckpt a = Except.ok b) l l2 := by
  induction l with
  | nil => exact ⟨[], rfl, List.Forall₂.nil⟩
  | cons a t ih =>
      obtain ⟨b, hb⟩ := h a (List.mem_cons_self a t)
      obtain ⟨t2, ht2, hf⟩ := ih fun x hx => h x (List.mem_cons_of_mem a hx)
      refine ⟨b :: t2, ?_, List.Forall₂.cons hb hf⟩
      unfold loadStateDictLoose
      rw [hb, ht2]
      rfl

/-- Membership transport along a Forall₂ relation. -/
theorem forall2_mem_left (R : SDEntry → SDEntry → Prop) (l1 l2 : List SDEntry)
    (h : List.Forall₂ R l1 l2) : ∀ a ∈ l1, ∃ b ∈ l2, R a b := by
  induction h with
  | nil => simp
  | cons hab _ ih =>
      intro a ha
      rcases List.mem_cons.mp ha with h1 | h1
      · exact ⟨_, List.mem_cons_self _ _, h1 ▸ hab⟩
      · obtain ⟨b, hb, hrb⟩ := ih a h1
        exact ⟨b, List.mem_cons_of_mem _ hb, hrb⟩

/-- One entry loads successfully under shape compatibility. -/
theorem loadEntry_ok (ckpt : List SDEntry) (e : SDEntry)
    (h : ∀ ce ∈ ckpt, ce.name = e.name → ce.shape = e.shape) :
    ∃ b, loadEntry ckpt e = Except.ok b := by
  unfold loadEntry
  cases hfind : ckpt.find? (fun ce => ce.name == e.name) with
  | none => exact ⟨e, rfl⟩
  | some ce =>
      have hmem := List.mem_of_find?_eq_some hfind
      have hname : ce.name = e.name := by
        have := List.find?_some hfind
        simpa using this
      refine ⟨{ e with val := ce.val }, ?_⟩
      simp [h ce hmem hname]

/-- Claim C4 (amended): checkpoint load, after stripping `module.`
prefixes, tolerates weight keys forming a subset of the model's
parameters (missing keys keep their freshly initialized entries, and
present keys with matching shapes replace them), while the EMA shadow
is installed by plain assignment with no shape validation at startup
(the conclusion imposes no constraint whatsoever on the shadow stored
in the checkpoint), and optimizer-state validation is delegated to the
external optimizer loader. -/
theorem load_tolerates_subset_and_skips_ema_check
    (optLoad : List TensorS → List TensorS → Except String (List TensorS))
    (netG0 netD0 : List SDEntry) (avg0 og0 od0 og1 od1 : List TensorS) (ck : CkptFile)
    (hg : ∀ e ∈ netG0, ∀ ce ∈ stripKeys ck.g, ce.name = e.name → ce.shape = e.shape)
    (hd : ∀ e ∈ netD0, ∀ ce ∈ stripKeys ck.d, ce.name = e.name → ce.shape = e.shape)
    (hog : optLoad og0 ck.opt_g = Except.ok og1)
    (hod : optLoad od0 ck.opt_d = Except.ok od1) :
    ∃ g1 d1,
      loadCheckpoint optLoad netG0 netD0 avg0 og0 od0 ck =
        Except.ok { netG := g1, netD := d1, avg_param_G := ck.g_ema,
                    optG := og1, optD := od1 }
      ∧ List.Forall₂ (fun e r => loadEntry (stripKeys ck.g) e = Except.ok r) netG0 g1
      ∧ (∀ e ∈ netG0,
          (stripKeys ck.g).find? (fun ce => ce.name == e.name) = none → e ∈ g1) := by
  obtain ⟨g1, hg1, hgf⟩ :=
    loadStateDictLoose_ok (stripKeys ck.g) netG0
      (fun e he => loadEntry_ok _ _ (fun ce hce => hg e he ce hce))
  obtain ⟨d1, hd1, _⟩ :=
    loadStateDictLoose_ok (stripKeys ck.d) netD0
      (fun e he => loadEntry_ok _ _ (fun ce hce => hd e he ce hce))
  refine ⟨g1, d1, ?_, hgf, ?_⟩
  · unfold loadCheckpoint
    rw [hg1, hd1, hog, hod]
    rfl
  · intro e hme hnone
    obtain ⟨r, hrmem, hre⟩ := forall2_mem_left _ _ _ hgf e hme
    have hok : loadEntry (stripKeys ck.g) e = Except.ok e := by
      unfold loadEntry
      rw [hnone]
    rw [hok] at hre
    injection hre with h1
    rw [h1]
    exact hrmem

/-- Witness for claim C4 (amended): the load property at the concrete
one-parameter model and the checkpoint with a distributed-training key
and an alien-shaped EMA shadow. -/
theorem load_tolerates_subset_and_skips_ema_check_witness :
    ((∀ e ∈ netG1, ∀ ce ∈ stripKeys ck1.g, ce.name = e.name → ce.shape = e.shape)
     ∧ (∀ e ∈ ([] : List SDEntry), ∀ ce ∈ stripKeys ck1.d, ce.name = e.name → ce.shape = e.shape)
     ∧ optLoadPass [] ck1.opt_g = Except.ok []
     ∧ optLoadPass [] ck1.opt_d = Except.ok [])
    ∧ (∃ g1 d1,
      loadCheckpoint optLoadPass netG1 [] [([2, 2], 0)] [] [] ck1 =
        Except.ok { netG := g1, netD := d1, avg_param_G := ck1.g_ema,
                    optG := [], optD := [] }
      ∧ List.Forall₂ (fun e r => loadEntry (stripKeys ck1.g) e = Except.ok r) netG1 g1
      ∧ (∀ e ∈ netG1,
          (stripKeys ck1.g).find? (fun ce => ce.name == e.name) = none → e ∈ g1)) :=
  ⟨⟨by decide, by decide, rfl, rfl⟩,
   load_tolerates_subset_and_skips_ema_check optLoadPass netG1 [] [([2, 2], 0)] [] [] [] []
     ck1 (by decide) (by decide) rfl rfl⟩

/-- Counterexample for claim C4 as stated: the checkpoint `ck1`
carries an EMA shadow whose shape `[3]` matches no parameter of the
model, yet `loadCheckpoint` returns success and installs the
mismatched shadow instead of raising a fatal error at startup. -/
theorem load_accepts_mismatched_ema_shadow :
    loadCheckpoint optLoadPass netG1 [] [([2, 2], 0)] [] [] ck1 =
      Except.ok { netG := [{ name := "weight", shape := [2, 2], val := 7 }],
                  netD := [], avg_param_G := [([3], 0)], optG := [], optD := [] }
    ∧ (∀ e ∈ netG1, e.shape ≠ [3]) :=
  ⟨rfl, by decide⟩

end FastGAN
